import Mathlib

/-!
Shallow embedding of the vehicle reservation Gantt application (src/app.py).

The application keeps a table of vehicle reservations in an Excel file,
mutates it through a Streamlit management UI (single create, bulk create,
single delete, bulk delete by date, inline edit save), renders it as a
plotly timeline, and pushes every local save to a git remote.

Modelling conventions:
* Timestamps are natural numbers counting minutes; a calendar day `d`
  starts at minute `d * 1440`.  Every timestamp the app manipulates is
  date-derived with seconds and microseconds zero, so minute granularity
  is exact.  Day `0` is taken to be a Monday, matching Python's
  `weekday()` convention `Monday = 0`.
* pandas DataFrames become `List Rec`; the positional index of a row is
  its list position.  `ignore_index=True` concatenation and
  `reset_index(drop=True)` followed by `df["Unique ID"] = df.index`
  become `reassignIds`.
* Python strings are Lean `String`s, manipulated through their
  underlying `List Char` so that every operation is executable and
  kernel-reducible.  `str.strip` becomes `pyStrip`, `int(...)` becomes
  `pyInt` (returning `none` where Python raises `ValueError`),
  `s.split("-")[0]` becomes `beforeFirstDash`, and the substring test
  `pat in s` becomes `strContains`.
* Streamlit's `st.date_input` and `st.column_config.DateColumn` produce
  calendar dates; converting such a date to a timestamp
  (`pd.to_datetime`) lands on midnight of that day (`dayStart`).
-/

namespace VehicleGantt

/-- Minutes in one calendar day. -/
def minutesPerDay : Nat := 1440

/-- Midnight (00:00) of calendar day `d`, as a minute timestamp.  This is
what `pd.to_datetime` yields for a plain calendar date. -/
def dayStart (d : Nat) : Nat := d * minutesPerDay

/-- `set_time_to_2359` (src/app.py lines 174-188): replace the time of
day of a timestamp with 23:59, keeping the calendar day. -/
def set_time_to_2359 (t : Nat) : Nat := t / minutesPerDay * minutesPerDay + 1439

/-! ### Python string primitives -/

/-- Python `str.strip()`: drop leading and trailing whitespace. -/
def pyStrip (s : String) : String :=
  ⟨((s.data.dropWhile Char.isWhitespace).reverse.dropWhile Char.isWhitespace).reverse⟩

/-- Digit run to numeric value (for `int(...)`). -/
def digitsVal (ds : List Char) : Nat :=
  ds.foldl (fun n c => n * 10 + (c.toNat - 48)) 0

/-- Core of Python `int(str)` on an already stripped character list:
an optional sign followed by a nonempty digit run; anything else raises
`ValueError`, modelled as `none`. -/
def pyIntCore : List Char → Option Int
  | '-' :: ds =>
    if !ds.isEmpty && ds.all Char.isDigit then some (-(digitsVal ds : Int)) else none
  | '+' :: ds =>
    if !ds.isEmpty && ds.all Char.isDigit then some (digitsVal ds : Int) else none
  | ds =>
    if !ds.isEmpty && ds.all Char.isDigit then some (digitsVal ds : Int) else none

/-- Python `int(s)` for a string: strips whitespace, then parses an
optionally signed digit run; `none` models an uncaught `ValueError`. -/
def pyInt (s : String) : Option Int := pyIntCore (pyStrip s).data

/-- The segment of `s` before the first `-`, i.e. Python
`s.split("-")[0]` (the whole string when no dash occurs). -/
def beforeFirstDash (s : String) : String := ⟨s.data.takeWhile (fun c => c != '-')⟩

/-- Python `"-" in s` for the one-character needle. -/
def hasDash (s : String) : Bool := s.data.contains '-'

/-- Does `l` start with `pat`? -/
def seqStarts : List Char → List Char → Bool
  | [], _ => true
  | _ :: _, [] => false
  | p :: ps, c :: cs => p == c && seqStarts ps cs

/-- Does `pat` occur as a contiguous subsequence of `l`? -/
def seqAnywhere (pat : List Char) : List Char → Bool
  | [] => seqStarts pat []
  | c :: cs => seqStarts pat (c :: cs) || seqAnywhere pat cs

/-- Python substring test `pat in s`. -/
def strContains (s pat : String) : Bool := seqAnywhere pat.data s.data

/-- Python `str.lower()` (ASCII, which covers the stored names). -/
def pyLower (s : String) : String := ⟨s.data.map Char.toLower⟩

/-! ### Vehicle-number derivation

Single create (src/app.py lines 461-464) wraps the conversion in
`try/except`, defaulting to 0; bulk create (lines 585 and 630) guards
only on the presence of a dash and lets `int(...)` raise. -/

/-- `int(t.split("-")[0].strip()) if t else 0` under `try/except: 0`
(single-create path; `Type` being `None` is modelled as `""`). -/
def singleVehicleNum (t : String) : Int :=
  if t = "" then 0 else (pyInt (pyStrip (beforeFirstDash t))).getD 0

/-- `int(t.split("-")[0].strip()) if t and "-" in t else 0` with no
exception handler (bulk-create path); `none` is an uncaught
`ValueError` that aborts the whole submit handler. -/
def bulkVehicleNum (t : String) : Option Int :=
  if t ≠ "" ∧ hasDash t = true then pyInt (pyStrip (beforeFirstDash t)) else some 0

/-! ### The reservation table -/

/-- One row of the `Vehicle_Checkout_List.xlsx` table. -/
structure Rec where
  uid : Nat
  vtype : String
  vnum : Int
  assignedTo : String
  status : String
  checkout : Nat
  ret : Nat
  drivers : String
  notes : String
deriving DecidableEq, Repr

/-- The `Unique ID` column of a table. -/
def idsOf (l : List Rec) : List Nat := l.map (fun r => r.uid)

/-- Positional id assignment starting at `n`. -/
def reassignIdsFrom (n : Nat) : List Rec → List Rec
  | [] => []
  | r :: rs => { r with uid := n } :: reassignIdsFrom (n + 1) rs

/-- `df.reset_index(drop=True); df["Unique ID"] = df.index`: every row
receives its position as its id. -/
def reassignIds (l : List Rec) : List Rec := reassignIdsFrom 0 l

/-- Ordering of rows by their `Unique ID`. -/
def uidLe (a b : Rec) : Prop := a.uid ≤ b.uid

instance : DecidableRel uidLe := fun a b => Nat.decLe a.uid b.uid

instance : IsTotal Rec uidLe := ⟨fun a b => Nat.le_total a.uid b.uid⟩

instance : IsTrans Rec uidLe := ⟨fun _ _ _ h h' => Nat.le_trans h h'⟩

/-! ### Store mutations (src/app.py, `display_management_interface`) -/

/-- The record built by the single-create form (lines 446-469): checkout
is the chosen date at midnight, the return date is forced to 23:59 by
`set_time_to_2359`, and the vehicle number is derived from the type with
the try/except default.  No date-range validation is performed. -/
def mkNewEntry (t a stt : String) (co rd : Nat) (dr no : String) : Rec :=
  { uid := 0, vtype := t, vnum := singleVehicleNum t, assignedTo := a, status := stt,
    checkout := dayStart co, ret := set_time_to_2359 (dayStart rd),
    drivers := dr, notes := no }

/-- Single create submit (lines 473-484): concatenate with
`ignore_index=True` and reset all `Unique ID`s to the index. -/
def singleCreate (store : List Rec) (e : Rec) : List Rec :=
  reassignIds (store ++ [e])

/-- Single delete submit (lines 682-689): drop the row whose index
label—equal to its `Unique ID` in the app's regime—matches the
selection, then reset all ids to the index. -/
def singleDelete (store : List Rec) (uid : Nat) : List Rec :=
  reassignIds (store.filter (fun r => r.uid ≠ uid))

/-- Bulk delete by date submit (lines 719-731).  Although lines 710-712
compute a 23:59-normalized threshold, line 720 re-assigns
`start_ts = pd.to_datetime(start_dt)`, i.e. the cutoff day at midnight,
and line 725 keeps exactly the rows with `Return Date > start_ts`. -/
def bulkDeleteByDate (store : List Rec) (cutoffDay : Nat) : List Rec :=
  reassignIds (store.filter (fun r => dayStart cutoffDay < r.ret))

/-- The deletion the spec describes for scenario D: cutoff normalized to
23:59 of the chosen day, removing `return_at <= cutoff`.  Stated from
the spec's words, for comparison with `bulkDeleteByDate`. -/
def bulkDeleteByDateSpec (store : List Rec) (cutoffDay : Nat) : List Rec :=
  reassignIds (store.filter (fun r => set_time_to_2359 (dayStart cutoffDay) < r.ret))

/-- Inline edit save (lines 796-830): sort the merged table by
`Unique ID`, reset the ids to the index, then force every
`Return Date` to 23:59. -/
def editSave (merged : List Rec) : List Rec :=
  (reassignIds (List.insertionSort uidLe merged)).map
    (fun r => { r with ret := set_time_to_2359 r.ret })

/-! ### Bulk create by weekdays (src/app.py lines 545-608) -/

/-- `Timestamp.weekday()` of day `d` (day 0 is a Monday). -/
def weekday (d : Nat) : Nat := d % 7

/-- `pd.date_range(start, end, freq="D")` as day numbers. -/
def dateRange (a b : Nat) : List Nat :=
  if b < a then [] else List.range' a (b - a + 1)

/-- The days of the range whose weekday was selected (line 559). -/
def filteredDates (a b : Nat) (wds : List Nat) : List Nat :=
  (dateRange a b).filter (fun d => wds.contains (weekday d))

/-- Loop body of the consecutive-day grouping (lines 564-575):
`s`/`e` are `current_start`/`current_end`. -/
def groupGo (s e : Nat) : List Nat → List (Nat × Nat)
  | [] => [(s, e)]
  | d :: ds => if d - e = 1 then groupGo s d ds else (s, e) :: groupGo d d ds

/-- Group an ascending list of days into maximal consecutive runs,
returning `(current_start, current_end)` pairs. -/
def groupRanges : List Nat → List (Nat × Nat)
  | [] => []
  | d :: ds => groupGo d d ds

/-- The bulk entry built for one consecutive run (lines 578-589):
checkout on the run's first day at midnight, return on its last day at
23:59, vehicle number `vn` already derived from the type. -/
def bulkEntryRec (t a stt dr no : String) (vn : Int) (s e : Nat) : Rec :=
  { uid := 0, vtype := t, vnum := vn, assignedTo := a, status := stt,
    checkout := dayStart s, ret := set_time_to_2359 (dayStart e),
    drivers := dr, notes := no }

/-- The new rows of one bulk submit: one entry per grouped run, then
line 592 re-applies `set_time_to_2359` to the whole `Return Date`
column. -/
def bulkEntriesOf (t a stt dr no : String) (vn : Int) (dates : List Nat) : List Rec :=
  ((groupRanges dates).map (fun p => bulkEntryRec t a stt dr no vn p.1 p.2)).map
    (fun r => { r with ret := set_time_to_2359 r.ret })

/-- Outcome of the bulk-create submit handler. -/
inductive BulkOutcome where
  | missingFields
  | missingWeekdays
  | invalidDateRange
  | noMatchingDays
  | exn
  | created (store : List Rec)
deriving DecidableEq, Repr

/-- Bulk create, weekday mode (lines 546-608): validation guards in
source order, then one record per maximal consecutive run of matching
days, appended with `ignore_index=True` and dense id reset.  `exn`
models the uncaught `ValueError` of `int(...)` on line 585. -/
def bulkCreateWeekdays (store : List Rec) (t a stt : String) (bs be : Nat)
    (wds : List Nat) (dr no : String) : BulkOutcome :=
  if t = "" ∨ a = "" then .missingFields
  else if wds = [] then .missingWeekdays
  else if be < bs then .invalidDateRange
  else if filteredDates bs be wds = [] then .noMatchingDays
  else
    match bulkVehicleNum t with
    | none => .exn
    | some vn =>
      .created (reassignIds (store ++ bulkEntriesOf t a stt dr no vn (filteredDates bs be wds)))

/-! ### Loading the persisted table (src/app.py lines 190-209) -/

/-- A raw row as read from the Excel file: the `Unique ID` cell may be
null (`none`); all other columns as stored. -/
structure RawRec where
  uid : Option Nat
  vtype : String
  vnum : Int
  assignedTo : String
  status : String
  checkout : Nat
  ret : Nat
  drivers : String
  notes : String
deriving DecidableEq, Repr

/-- Forget the rawness of a row, defaulting a missing id to `0`. -/
def rawToRec (r : RawRec) : Rec :=
  { uid := r.uid.getD 0, vtype := r.vtype, vnum := r.vnum, assignedTo := r.assignedTo,
    status := r.status, checkout := r.checkout, ret := r.ret,
    drivers := r.drivers, notes := r.notes }

/-- Line 200 of `load_vehicle_data`: force every `Return Date` to
23:59. -/
def loadRows1 (rows : List RawRec) : List RawRec :=
  rows.map (fun r => { r with ret := set_time_to_2359 r.ret })

/-- Lines 205-206 of `load_vehicle_data`: if the `Unique ID` column is
absent or contains a null, assign `range(len(df))`; `uidColPresent`
models `"Unique ID" in df.columns`. -/
def loadRecs (rows : List RawRec) (uidColPresent : Bool) : List Rec :=
  if uidColPresent && (loadRows1 rows).all (fun r => r.uid.isSome)
  then (loadRows1 rows).map rawToRec
  else reassignIds ((loadRows1 rows).map rawToRec)

/-- `load_vehicle_data` (lines 190-209): normalize return times, repair
ids when needed, and return the table sorted ascending by
`Unique ID` (line 208). -/
def load_vehicle_data (rows : List RawRec) (uidColPresent : Bool) : List Rec :=
  List.insertionSort uidLe (loadRecs rows uidColPresent)

/-! ### Timeline trace ordering (src/app.py lines 295-311)

`px.timeline` is called with `color="Assigned to"` and
`pattern_shape="Status"`, so plotly express emits one trace per
(assignee, status) pair present in the snapshot, in first-seen order,
named with the two group values joined by a comma and a space
(the names shown in the chart legend).  Line 311 then reorders
`fig.data` with Python's stable `sorted`, keyed by whether the trace
name contains the substring `"Reserved"`. -/

/-- One plotly trace: the (assignee, status) group and the vehicle-type
row its bars lie in. -/
structure Trace where
  assignedTo : String
  status : String
  row : String
deriving DecidableEq, Repr

/-- The trace name plotly express derives from the two grouping
columns. -/
def traceName (t : Trace) : String := t.assignedTo ++ ", " ++ t.status

/-- Sort key of line 311: `0 if "Reserved" in t.name else 1`. -/
def traceKey (t : Trace) : Nat :=
  if strContains (traceName t) "Reserved" = true then 0 else 1

/-- Ordering of traces by their sort key. -/
def traceKeyLe (a b : Trace) : Prop := traceKey a ≤ traceKey b

instance : DecidableRel traceKeyLe := fun a b => Nat.decLe (traceKey a) (traceKey b)

instance : IsTotal Trace traceKeyLe := ⟨fun a b => Nat.le_total (traceKey a) (traceKey b)⟩

instance : IsTrans Trace traceKeyLe := ⟨fun _ _ _ h h' => Nat.le_trans h h'⟩

/-- `fig.data = tuple(sorted(fig.data, key=...))` (line 311): a stable
ascending sort by `traceKey`; traces earlier in the tuple are drawn
first, i.e. beneath later ones. -/
def orderTraces (ts : List Trace) : List Trace := List.insertionSort traceKeyLe ts

/-! ### Lookup registries (src/app.py lines 165-171 and 846-866) -/

/-- `load_lookup_list`: strip each line, drop blank lines, sort. -/
def load_lookup_list (lines : List String) : List String :=
  List.insertionSort (fun a b : String => a ≤ b)
    ((lines.map pyStrip).filter (fun l => l ≠ ""))

/-- A registry's persisted state together with the count of publishes
performed for it. -/
structure RegState where
  lines : List String
  pushes : Nat
deriving DecidableEq, Repr

/-- Outcome of `add_to_list_file`. -/
inductive AddOutcome where
  | emptyName
  | alreadyExists
  | added
deriving DecidableEq, Repr

/-- `add_to_list_file` (lines 846-866): reject an empty name; reject a
case-insensitive duplicate of the loaded list before touching the file;
otherwise append the name on a new line and push to the remote. -/
def add_to_list_file (st : RegState) (newName : String) : RegState × AddOutcome :=
  if newName = "" then (st, .emptyName)
  else if ((load_lookup_list st.lines).map pyLower).contains (pyLower newName) then
    (st, .alreadyExists)
  else ({ lines := st.lines ++ [newName], pushes := st.pushes + 1 }, .added)

/-! ### Local persistence and remote publish (src/app.py lines 109-131,
and the submit handlers that write the Excel file before pushing) -/

/-- Result of the git add/commit/push sequence inside
`push_changes_to_github`. -/
inductive PushResult where
  | pushed
  | noChanges
  | failed (err : String)
deriving DecidableEq, Repr

/-- What the user is shown for a mutation attempt.  Validation failures
are `st.error` calls in the form handlers; a failed push surfaces
`st.warning("Your changes have been saved locally but not pushed...")`
(line 131). -/
inductive Surface where
  | validationError
  | syncSuccess
  | syncNoop
  | syncWarningSavedLocally
deriving DecidableEq, Repr

/-- The message `push_changes_to_github` surfaces (lines 109-131): its
`except` branch prints an error plus the saved-locally warning and
performs no file operation. -/
def push_changes_to_github : PushResult → Surface
  | .pushed => .syncSuccess
  | .noChanges => .syncNoop
  | .failed _ => .syncWarningSavedLocally

/-- The locally persisted Excel file and the remote's copy. -/
structure AppState where
  localExcel : List Rec
  remoteExcel : List Rec
deriving DecidableEq, Repr

/-- Every mutation handler first writes the new table to the Excel file
(e.g. line 484) and only then calls `push_changes_to_github`
(e.g. line 489); the push updates the remote on success and changes
nothing on failure. -/
def saveAndPush (s : AppState) (newTable : List Rec) (pr : PushResult) :
    AppState × Surface :=
  let s1 := { s with localExcel := newTable }
  match pr with
  | .pushed => ({ s1 with remoteExcel := newTable }, push_changes_to_github pr)
  | _ => (s1, push_changes_to_github pr)

/-! ## Helper lemmas -/

theorem idsOf_reassignIdsFrom (n : Nat) (l : List Rec) :
    idsOf (reassignIdsFrom n l) = List.range' n l.length := by
  induction l generalizing n with
  | nil => rfl
  | cons r rs ih =>
    simp only [idsOf, List.map] at ih ⊢
    simp [reassignIdsFrom, List.range'_succ, ih]

theorem idsOf_reassignIds (l : List Rec) :
    idsOf (reassignIds l) = List.range l.length := by
  rw [List.range_eq_range']
  exact idsOf_reassignIdsFrom 0 l

theorem length_reassignIdsFrom (n : Nat) (l : List Rec) :
    (reassignIdsFrom n l).length = l.length := by
  induction l generalizing n with
  | nil => rfl
  | cons r rs ih => simp [reassignIdsFrom, ih]

theorem length_reassignIds (l : List Rec) : (reassignIds l).length = l.length :=
  length_reassignIdsFrom 0 l

theorem idsOf_reassignIds_eq_range_length (l : List Rec) :
    idsOf (reassignIds l) = List.range (reassignIds l).length := by
  rw [idsOf_reassignIds, length_reassignIds]

theorem map_ret_reassignIdsFrom (n : Nat) (l : List Rec) :
    (reassignIdsFrom n l).map (fun r => r.ret) = l.map (fun r => r.ret) := by
  induction l generalizing n with
  | nil => rfl
  | cons r rs ih => simp [reassignIdsFrom, ih]

theorem set_time_to_2359_mod (t : Nat) :
    set_time_to_2359 t % minutesPerDay = 1439 := by
  unfold set_time_to_2359 minutesPerDay
  omega

theorem set_time_to_2359_idem (t : Nat) :
    set_time_to_2359 (set_time_to_2359 t) = set_time_to_2359 t := by
  unfold set_time_to_2359 minutesPerDay
  omega

theorem dayStart_mod (d : Nat) : dayStart d % minutesPerDay = 0 := by
  unfold dayStart
  exact Nat.mul_mod_left d minutesPerDay

/-- If a bulk-create submit reaches the store mutation, the new store is
a dense reassignment. -/
theorem bulkCreateWeekdays_created (store : List Rec) (t a stt : String) (bs be : Nat)
    (wds : List Nat) (dr no : String) (out : List Rec)
    (h : bulkCreateWeekdays store t a stt bs be wds dr no = .created out) :
    ∃ l, out = reassignIds l := by
  unfold bulkCreateWeekdays at h
  split at h
  · cases h
  · split at h
    · cases h
    · split at h
      · cases h
      · split at h
        · cases h
        · split at h
          · cases h
          · cases h
            exact ⟨_, rfl⟩

/-! ## Claim theorems -/

/-- C1: after each of the five cardinality-changing mutations — single
create, bulk create (when it reaches the store), single delete, bulk
delete by date, inline edit save — the Unique ID column of the stored
table is exactly 0, 1, ..., count-1, with no gaps and no duplicates. -/
theorem c1_id_density (store : List Rec) (e : Rec) (uid cutoff : Nat)
    (merged : List Rec) (t a stt : String) (bs be : Nat) (wds : List Nat)
    (dr no : String) (out : List Rec) :
    idsOf (singleCreate store e) = List.range (singleCreate store e).length
    ∧ (bulkCreateWeekdays store t a stt bs be wds dr no = .created out →
        idsOf out = List.range out.length)
    ∧ idsOf (singleDelete store uid) = List.range (singleDelete store uid).length
    ∧ idsOf (bulkDeleteByDate store cutoff) = List.range (bulkDeleteByDate store cutoff).length
    ∧ idsOf (editSave merged) = List.range (editSave merged).length := by
  refine ⟨idsOf_reassignIds_eq_range_length _, ?_, idsOf_reassignIds_eq_range_length _,
    idsOf_reassignIds_eq_range_length _, ?_⟩
  · intro h
    obtain ⟨l, rfl⟩ := bulkCreateWeekdays_created store t a stt bs be wds dr no out h
    exact idsOf_reassignIds_eq_range_length l
  · show idsOf ((reassignIds (List.insertionSort uidLe merged)).map _) = _
    have hmap : ∀ l : List Rec,
        idsOf (l.map (fun r => { r with ret := set_time_to_2359 r.ret })) = idsOf l := by
      intro l
      simp [idsOf, List.map_map]
    rw [editSave, hmap, List.length_map, idsOf_reassignIds_eq_range_length]

/-- Sample single-create record used by several witnesses. -/
def sampleRec : Rec := mkNewEntry "12 - Truck" "Alice" "Confirmed" 3 5 "" ""

/-- The store produced by a concrete weekday bulk create (Mondays of
days 0..7). -/
def bulkOut0 : List Rec :=
  reassignIds ([] ++ bulkEntriesOf "12 - Truck" "A" "Confirmed" "" "" 12 (filteredDates 0 7 [0]))

theorem c1_id_density_witness :
    bulkCreateWeekdays [] "12 - Truck" "A" "Confirmed" 0 7 [0] "" "" = .created bulkOut0
    ∧ idsOf bulkOut0 = List.range bulkOut0.length :=
  ⟨by decide,
    (c1_id_density [] sampleRec 0 0 [] "12 - Truck" "A" "Confirmed" 0 7 [0] "" ""
      bulkOut0).2.1 (by decide)⟩

/-- A record whose return date is day 100 at 23:59 (checkout day 98). -/
def cutRec : Rec :=
  { uid := 0, vtype := "12 - Truck", vnum := 12, assignedTo := "Alice",
    status := "Confirmed", checkout := dayStart 98,
    ret := set_time_to_2359 (dayStart 100), drivers := "", notes := "" }

/-- C2: the code keeps a record whose return date falls exactly on the
bulk-delete cutoff day, because line 720 overwrites the 23:59-normalized
threshold of line 712 with the cutoff day at midnight; the spec's
cutoff (normalized to 23:59, second definition) would remove it. -/
theorem c2_midnight_cutoff_bug :
    bulkDeleteByDate [cutRec] 100 = [cutRec]
    ∧ bulkDeleteByDateSpec [cutRec] 100 = [] := by decide

/-- C3 counterexample: the single-create form performs no date-range
validation; a record whose checkout day (10) is strictly after its
return day (5) is stored rather than rejected. -/
theorem c3_counterexample :
    (mkNewEntry "12 - Truck" "Alice" "Confirmed" 10 5 "" "").ret
      < (mkNewEntry "12 - Truck" "Alice" "Confirmed" 10 5 "" "").checkout
    ∧ singleCreate [] (mkNewEntry "12 - Truck" "Alice" "Confirmed" 10 5 "" "")
      = [mkNewEntry "12 - Truck" "Alice" "Confirmed" 10 5 "" ""] := by decide

/-- C3 amended: only the bulk-create form rejects an end date strictly
before the start date (with an error and no store mutation); the
single-create form applies no date-range check and always appends the
record. -/
theorem c3_amended_validation (store : List Rec) (t a stt : String) (bs be : Nat)
    (wds : List Nat) (dr no : String) (e : Rec)
    (ht : t ≠ "") (ha : a ≠ "") (hw : wds ≠ []) (hlt : be < bs) :
    bulkCreateWeekdays store t a stt bs be wds dr no = .invalidDateRange
    ∧ (singleCreate store e).length = store.length + 1 := by
  constructor
  · unfold bulkCreateWeekdays
    rw [if_neg (by exact fun h => h.elim ht ha), if_neg hw, if_pos hlt]
  · rw [singleCreate, length_reassignIds, List.length_append, List.length_singleton]

/-- Consuming a run of consecutive days extends the current group to
the run's last day. -/
theorem groupGo_range' (k : Nat) : ∀ s e : Nat,
    groupGo s e (List.range' (e + 1) k) = [(s, e + k)] := by
  induction k with
  | zero => intro s e; rfl
  | succ k ih =>
    intro s e
    rw [List.range'_succ]
    show groupGo s e ((e + 1) :: List.range' (e + 1 + 1) k) = _
    rw [groupGo, if_pos (by omega), ih s (e + 1)]
    have : e + 1 + k = e + (k + 1) := by omega
    rw [this]

/-- Consuming a run of consecutive days followed by a day at distance at
least two closes the current group and starts a fresh one. -/
theorem groupGo_range'_append (k : Nat) : ∀ (s e b : Nat) (rest : List Nat),
    e + k + 2 ≤ b →
    groupGo s e (List.range' (e + 1) k ++ b :: rest)
      = (s, e + k) :: groupGo b b rest := by
  induction k with
  | zero =>
    intro s e b rest hb
    show groupGo s e (b :: rest) = _
    rw [groupGo, if_neg (by omega)]
    rfl
  | succ k ih =>
    intro s e b rest hb
    rw [List.range'_succ]
    show groupGo s e ((e + 1) :: (List.range' (e + 1 + 1) k ++ b :: rest)) = _
    rw [groupGo, if_pos (by omega), ih s (e + 1) b rest (by omega)]
    have : e + 1 + k = e + (k + 1) := by omega
    rw [this]

/-- One contiguous block of days collapses to a single group spanning
its first and last day. -/
theorem groupRanges_single_block (a m : Nat) (hm : 1 ≤ m) :
    groupRanges (List.range' a m) = [(a, a + m - 1)] := by
  obtain ⟨m', rfl⟩ : ∃ m', m = m' + 1 := ⟨m - 1, by omega⟩
  rw [List.range'_succ]
  show groupGo a a (List.range' (a + 1) m') = _
  rw [groupGo_range' m' a a]
  have : a + m' = a + (m' + 1) - 1 := by omega
  rw [this]

/-- Two blocks separated by a gap of at least one non-matching day
collapse to exactly two groups. -/
theorem groupRanges_two_blocks (a m b n : Nat) (hm : 1 ≤ m) (hn : 1 ≤ n)
    (hgap : a + m < b) :
    groupRanges (List.range' a m ++ List.range' b n)
      = [(a, a + m - 1), (b, b + n - 1)] := by
  obtain ⟨m', rfl⟩ : ∃ m', m = m' + 1 := ⟨m - 1, by omega⟩
  obtain ⟨n', rfl⟩ : ∃ n', n = n' + 1 := ⟨n - 1, by omega⟩
  rw [List.range'_succ, List.range'_succ, List.cons_append]
  show groupGo a a (List.range' (a + 1) m' ++ b :: List.range' (b + 1) n') = _
  rw [groupGo_range'_append m' a a b _ (by omega), groupGo_range' n' b b]
  have h1 : a + m' = a + (m' + 1) - 1 := by omega
  have h2 : b + n' = b + (n' + 1) - 1 := by omega
  rw [h1, h2]

/-- The second 23:59 normalization of line 592 changes nothing on a
bulk entry. -/
theorem retfix_bulkEntryRec (t a stt dr no : String) (vn : Int) (s e : Nat) :
    (fun r => { r with ret := set_time_to_2359 r.ret }) (bulkEntryRec t a stt dr no vn s e)
      = bulkEntryRec t a stt dr no vn s e := by
  simp [bulkEntryRec, set_time_to_2359_idem]

theorem bulkEntriesOf_single_block (t a stt dr no : String) (vn : Int) (a0 m : Nat)
    (hm : 1 ≤ m) :
    bulkEntriesOf t a stt dr no vn (List.range' a0 m)
      = [bulkEntryRec t a stt dr no vn a0 (a0 + m - 1)] := by
  rw [bulkEntriesOf, groupRanges_single_block a0 m hm]
  simp [retfix_bulkEntryRec]

theorem bulkEntriesOf_two_blocks (t a stt dr no : String) (vn : Int) (a0 m b0 n : Nat)
    (hm : 1 ≤ m) (hn : 1 ≤ n) (hgap : a0 + m < b0) :
    bulkEntriesOf t a stt dr no vn (List.range' a0 m ++ List.range' b0 n)
      = [bulkEntryRec t a stt dr no vn a0 (a0 + m - 1),
         bulkEntryRec t a stt dr no vn b0 (b0 + n - 1)] := by
  rw [bulkEntriesOf, groupRanges_two_blocks a0 m b0 n hm hn hgap]
  simp [retfix_bulkEntryRec]

/-- No weekday selected means no matching day. -/
theorem filteredDates_nil_weekdays (bs be : Nat) : filteredDates bs be [] = [] := by
  simp [filteredDates]

/-- An inverted range contains no day at all. -/
theorem filteredDates_inverted (bs be : Nat) (wds : List Nat) (h : be < bs) :
    filteredDates bs be wds = [] := by
  simp [filteredDates, dateRange, if_pos h]

/-- Reduction of the bulk-create submit once all validation guards
pass: only the vehicle-number conversion remains. -/
theorem bulkCreateWeekdays_past_guards (store : List Rec) (t a stt : String)
    (bs be : Nat) (wds : List Nat) (dr no : String)
    (ht : t ≠ "") (ha : a ≠ "") (hne : filteredDates bs be wds ≠ []) :
    bulkCreateWeekdays store t a stt bs be wds dr no
      = match bulkVehicleNum t with
        | none => .exn
        | some vn =>
          .created (reassignIds (store ++
            bulkEntriesOf t a stt dr no vn (filteredDates bs be wds))) := by
  have hwds : wds ≠ [] := by
    intro hw
    exact hne (by rw [hw, filteredDates_nil_weekdays])
  have hbe : ¬ be < bs := by
    intro hlt
    exact hne (filteredDates_inverted bs be wds hlt)
  unfold bulkCreateWeekdays
  rw [if_neg (not_or.mpr ⟨ht, ha⟩), if_neg hwds, if_neg hbe, if_neg hne]

/-- Reduction of the bulk-create submit once all guards pass and the
vehicle number converts. -/
theorem bulkCreateWeekdays_run (store : List Rec) (t a stt : String) (bs be : Nat)
    (wds : List Nat) (dr no : String) (vn : Int)
    (ht : t ≠ "") (ha : a ≠ "") (hvn : bulkVehicleNum t = some vn)
    (hne : filteredDates bs be wds ≠ []) :
    bulkCreateWeekdays store t a stt bs be wds dr no
      = .created (reassignIds (store ++
          bulkEntriesOf t a stt dr no vn (filteredDates bs be wds))) := by
  rw [bulkCreateWeekdays_past_guards store t a stt bs be wds dr no ht ha hne, hvn]

/-- C4: given a weekday selection and a date range whose matching days
form one contiguous block, the weekday bulk create emits exactly one
record spanning the block (checkout on its first day, return at 23:59
of its last); when the matching days form two blocks separated by a
gap, it emits exactly two such records. -/
theorem c4_run_collapsing (store : List Rec) (t a stt : String) (bs be : Nat)
    (wds : List Nat) (dr no : String) (a0 m b0 n : Nat) (vn : Int)
    (ht : t ≠ "") (ha : a ≠ "") (hvn : bulkVehicleNum t = some vn) :
    (filteredDates bs be wds = List.range' a0 m → 1 ≤ m →
      bulkCreateWeekdays store t a stt bs be wds dr no
        = .created (reassignIds (store ++
            [bulkEntryRec t a stt dr no vn a0 (a0 + m - 1)])))
    ∧ (filteredDates bs be wds = List.range' a0 m ++ List.range' b0 n →
        1 ≤ m → 1 ≤ n → a0 + m < b0 →
        bulkCreateWeekdays store t a stt bs be wds dr no
          = .created (reassignIds (store ++
              [bulkEntryRec t a stt dr no vn a0 (a0 + m - 1),
               bulkEntryRec t a stt dr no vn b0 (b0 + n - 1)]))) := by
  constructor
  · intro hf hm
    have hne : filteredDates bs be wds ≠ [] := by
      rw [hf]
      intro hz
      have := congrArg List.length hz
      simp [List.length_range'] at this
      omega
    rw [bulkCreateWeekdays_run store t a stt bs be wds dr no vn ht ha hvn hne, hf,
      bulkEntriesOf_single_block t a stt dr no vn a0 m hm]
  · intro hf hm hn hgap
    have hne : filteredDates bs be wds ≠ [] := by
      rw [hf]
      intro hz
      have := congrArg List.length hz
      simp [List.length_range'] at this
      omega
    rw [bulkCreateWeekdays_run store t a stt bs be wds dr no vn ht ha hvn hne, hf,
      bulkEntriesOf_two_blocks t a stt dr no vn a0 m b0 n hm hn hgap]

theorem c4_run_collapsing_witness :
    bulkCreateWeekdays [] "12 - Truck" "A" "Confirmed" 0 1 [0, 1] "" ""
      = .created (reassignIds ([] ++ [bulkEntryRec "12 - Truck" "A" "Confirmed" "" "" 12 0 (0 + 2 - 1)]))
    ∧ bulkCreateWeekdays [] "12 - Truck" "A" "Confirmed" 0 7 [0] "" ""
      = .created (reassignIds ([] ++
          [bulkEntryRec "12 - Truck" "A" "Confirmed" "" "" 12 0 (0 + 1 - 1),
           bulkEntryRec "12 - Truck" "A" "Confirmed" "" "" 12 7 (7 + 1 - 1)])) :=
  ⟨(c4_run_collapsing [] "12 - Truck" "A" "Confirmed" 0 1 [0, 1] "" "" 0 2 0 0 12
      (by decide) (by decide) (by decide)).1 (by decide) (by decide),
   (c4_run_collapsing [] "12 - Truck" "A" "Confirmed" 0 7 [0] "" "" 0 1 7 1 12
      (by decide) (by decide) (by decide)).2 (by decide) (by decide) (by decide) (by decide)⟩

theorem seqStarts_append_self (p r : List Char) : seqStarts p (p ++ r) = true := by
  induction p with
  | nil => rfl
  | cons c cs ih => simp [seqStarts, ih]

theorem seqAnywhere_suffix_self (pat : List Char) : ∀ x : List Char,
    seqAnywhere pat (x ++ pat) = true := by
  intro x
  induction x with
  | nil =>
    simp only [List.nil_append]
    cases pat with
    | nil => rfl
    | cons c cs =>
      show (seqStarts (c :: cs) (c :: cs) || seqAnywhere (c :: cs) cs) = true
      have h := seqStarts_append_self (c :: cs) []
      rw [List.append_nil] at h
      simp [h]
  | cons y ys ih =>
    show (seqStarts pat (y :: (ys ++ pat)) || seqAnywhere pat (ys ++ pat)) = true
    simp [ih]

/-- Any trace name ending in the status value Reserved contains the
substring Reserved. -/
theorem strContains_reserved_name (x : String) :
    strContains (x ++ ", " ++ "Reserved") "Reserved" = true := by
  show seqAnywhere ("Reserved").data ((x.data ++ (", ").data) ++ ("Reserved").data) = true
  exact seqAnywhere_suffix_self _ _

theorem traceKey_reserved (tr : Trace) (h : tr.status = "Reserved") :
    traceKey tr = 0 := by
  unfold traceKey
  rw [if_pos (by rw [traceName, h]; exact strContains_reserved_name _)]

theorem traceKey_of_not_contains (tr : Trace)
    (h : strContains (traceName tr) "Reserved" = false) : traceKey tr = 1 := by
  unfold traceKey
  rw [if_neg (by simp [h])]

/-- C5 amended: provided no Confirmed trace's legend name (the
assignee and the status joined by a comma) contains the substring
Reserved — in particular whenever no assignee name contains
"Reserved" — the reordering of line 311 places every Reserved trace
before (beneath) every Confirmed trace, in the same row and overall. -/
theorem c5_reserved_beneath_confirmed (ts : List Trace)
    (h : ∀ tr ∈ ts, tr.status = "Confirmed" →
      strContains (traceName tr) "Reserved" = false) :
    (orderTraces ts).Pairwise
      (fun x y => x.status = "Confirmed" → y.row = x.row → y.status ≠ "Reserved") := by
  have hs : (orderTraces ts).Pairwise traceKeyLe :=
    List.sorted_insertionSort traceKeyLe ts
  refine List.Pairwise.imp_of_mem ?_ hs
  intro x y hx hy hxy
  intro hconf hrow hres
  have hxmem : x ∈ ts := (List.perm_insertionSort traceKeyLe ts).mem_iff.mp hx
  have hky : traceKey y = 0 := traceKey_reserved y hres
  have hkx : traceKey x = 1 := traceKey_of_not_contains x (h x hxmem hconf)
  have : traceKey x ≤ traceKey y := hxy
  omega

/-- A Confirmed trace whose assignee name happens to contain the word
Reserved. -/
def trConf : Trace :=
  { assignedTo := "Reserved Crew", status := "Confirmed", row := "12 - Truck" }

/-- A Reserved trace in the same vehicle-type row. -/
def trRes : Trace :=
  { assignedTo := "Alice", status := "Reserved", row := "12 - Truck" }

/-- C5 counterexample: the sort key of line 311 is a substring test on
the trace name, so a Confirmed trace whose assignee contains
"Reserved" also gets key 0; with such a trace first, the stable sort
leaves the Reserved trace of the same row above it, violating the
claimed ordering. -/
theorem c5_counterexample :
    ¬ (orderTraces [trConf, trRes]).Pairwise
      (fun x y => x.status = "Confirmed" → y.row = x.row → y.status ≠ "Reserved") := by
  intro h
  have e : orderTraces [trConf, trRes] = [trConf, trRes] := by decide
  rw [e] at h
  have h1 := (List.pairwise_cons.mp h).1 trRes (List.mem_singleton.mpr rfl)
  exact h1 rfl rfl rfl

/-- A Confirmed trace with an ordinary assignee name. -/
def trConfPlain : Trace :=
  { assignedTo := "Bob", status := "Confirmed", row := "12 - Truck" }

theorem c5_reserved_beneath_confirmed_witness :
    (orderTraces [trConfPlain, trRes]).Pairwise
      (fun x y => x.status = "Confirmed" → y.row = x.row → y.status ≠ "Reserved") :=
  c5_reserved_beneath_confirmed [trConfPlain, trRes] (by decide)

theorem c3_amended_validation_witness :
    bulkCreateWeekdays [] "12 - Truck" "Alice" "Confirmed" 10 5 [0] "" ""
      = .invalidDateRange
    ∧ (singleCreate [] sampleRec).length = ([] : List Rec).length + 1 :=
  c3_amended_validation [] "12 - Truck" "Alice" "Confirmed" 10 5 [0] "" "" sampleRec
    (by decide) (by decide) (by decide) (by decide)

/-- C6: every record persisted by single create has checkout at
00:00:00 and return at 23:59:00 of the chosen days; every bulk-created
record likewise; the inline edit save re-forces 23:59 on every stored
return date, and a date edited through the editor's date column is
persisted at midnight. -/
theorem c6_time_normalization (t a stt : String) (co rd : Nat) (dr no : String)
    (vn : Int) (dates : List Nat) (merged : List Rec) (d : Nat) :
    (mkNewEntry t a stt co rd dr no).checkout % minutesPerDay = 0
    ∧ (mkNewEntry t a stt co rd dr no).ret % minutesPerDay = 1439
    ∧ (∀ r ∈ bulkEntriesOf t a stt dr no vn dates,
        r.checkout % minutesPerDay = 0 ∧ r.ret % minutesPerDay = 1439)
    ∧ (∀ r ∈ editSave merged, r.ret % minutesPerDay = 1439)
    ∧ dayStart d % minutesPerDay = 0 := by
  refine ⟨dayStart_mod co, set_time_to_2359_mod _, ?_, ?_, dayStart_mod d⟩
  · intro r hr
    rw [bulkEntriesOf] at hr
    simp only [List.map_map, List.mem_map] at hr
    obtain ⟨p, hp, rfl⟩ := hr
    exact ⟨dayStart_mod p.1, set_time_to_2359_mod _⟩
  · intro r hr
    rw [editSave] at hr
    simp only [List.mem_map] at hr
    obtain ⟨r', hr', rfl⟩ := hr
    exact set_time_to_2359_mod _

theorem c6_time_normalization_witness :
    (mkNewEntry "12 - Truck" "Alice" "Confirmed" 3 5 "" "").checkout % minutesPerDay = 0
    ∧ (mkNewEntry "12 - Truck" "Alice" "Confirmed" 3 5 "" "").ret % minutesPerDay = 1439
    ∧ ((bulkEntryRec "12 - Truck" "Alice" "Confirmed" "" "" 12 0 0).checkout % minutesPerDay = 0
        ∧ (bulkEntryRec "12 - Truck" "Alice" "Confirmed" "" "" 12 0 0).ret % minutesPerDay = 1439)
    ∧ sampleRec.ret % minutesPerDay = 1439
    ∧ dayStart 7 % minutesPerDay = 0 := by
  have h := c6_time_normalization "12 - Truck" "Alice" "Confirmed" 3 5 "" "" 12 [0]
    [sampleRec] 7
  exact ⟨h.1, h.2.1, h.2.2.1 _ (by decide), h.2.2.2.1 sampleRec (by decide), h.2.2.2.2⟩

/-- C7: appending a name already present in the loaded registry under
case-insensitive comparison returns the already-exists outcome and
leaves the stored lines and the publish count unchanged. -/
theorem c7_registry_duplicate_rejected (st : RegState) (newName : String)
    (hne : newName ≠ "")
    (hdup : ((load_lookup_list st.lines).map pyLower).contains (pyLower newName) = true) :
    add_to_list_file st newName = (st, .alreadyExists) := by
  unfold add_to_list_file
  rw [if_neg hne, if_pos hdup]

theorem c7_registry_duplicate_rejected_witness :
    add_to_list_file ⟨["Alice"], 0⟩ "ALICE" = (⟨["Alice"], 0⟩, .alreadyExists) :=
  c7_registry_duplicate_rejected ⟨["Alice"], 0⟩ "ALICE" (by decide) (by decide)

/-- C8: the mutation handlers write the new table to the local Excel
file before pushing, so after any push outcome — including a rejected
or unreachable push and the nothing-changed no-op — the locally
persisted table equals the table of the successful-push run; a failed
push is surfaced as the saved-locally warning, which is distinct from a
validation error. -/
theorem c8_local_durability (s : AppState) (newTable : List Rec) (pr : PushResult) :
    (saveAndPush s newTable pr).1.localExcel = newTable
    ∧ (saveAndPush s newTable pr).1.localExcel
        = (saveAndPush s newTable .pushed).1.localExcel
    ∧ (∀ m, pr = .failed m →
        (saveAndPush s newTable pr).2 = .syncWarningSavedLocally)
    ∧ Surface.syncWarningSavedLocally ≠ Surface.validationError := by
  refine ⟨?_, ?_, ?_, by decide⟩
  · cases pr <;> rfl
  · cases pr <;> rfl
  · intro m hm
    subst hm
    rfl

theorem c8_local_durability_witness :
    (saveAndPush ⟨[], []⟩ [sampleRec] (.failed "push rejected")).1.localExcel = [sampleRec]
    ∧ (saveAndPush ⟨[], []⟩ [sampleRec] (.failed "push rejected")).2
        = .syncWarningSavedLocally := by
  have h := c8_local_durability ⟨[], []⟩ [sampleRec] (.failed "push rejected")
  exact ⟨h.1, h.2.2.1 "push rejected" rfl⟩

/-- C9 counterexample: for the type "Truck - Big" (a dash present, a
non-numeric segment before it) the bulk-create derivation raises an
uncaught ValueError — modelled as none — aborting the whole operation
instead of yielding 0, while the single-create derivation defaults to
0; the claim asserts both yield 0 without rejecting. -/
theorem c9_counterexample :
    bulkVehicleNum "Truck - Big" = none
    ∧ singleVehicleNum "Truck - Big" = 0
    ∧ bulkCreateWeekdays [] "Truck - Big" "A" "Confirmed" 0 7 [0] "" "" = .exn := by
  decide

/-- C9 amended: the single-create derivation is total and non-fatal
(the record is always appended, the vehicle number is the parsed
pre-dash integer when it parses and 0 otherwise); the bulk-create
derivation yields 0 when the type has no dash and the parsed integer
when the segment parses, but a dash with a non-numeric segment raises
an uncaught error that aborts the bulk operation with no record
created. -/
theorem c9_vehicle_number_derivation (store : List Rec) (t a stt : String)
    (co rd bs be : Nat) (wds : List Nat) (dr no : String) :
    (singleCreate store (mkNewEntry t a stt co rd dr no)).length = store.length + 1
    ∧ (∀ n : Int, pyInt (pyStrip (beforeFirstDash t)) = some n → t ≠ "" →
        (mkNewEntry t a stt co rd dr no).vnum = n)
    ∧ (pyInt (pyStrip (beforeFirstDash t)) = none →
        (mkNewEntry t a stt co rd dr no).vnum = 0)
    ∧ (t = "" → (mkNewEntry t a stt co rd dr no).vnum = 0)
    ∧ (hasDash t = false → bulkVehicleNum t = some 0)
    ∧ (t ≠ "" → hasDash t = true →
        bulkVehicleNum t = pyInt (pyStrip (beforeFirstDash t)))
    ∧ (t ≠ "" → a ≠ "" → filteredDates bs be wds ≠ [] → bulkVehicleNum t = none →
        bulkCreateWeekdays store t a stt bs be wds dr no = .exn) := by
  refine ⟨?_, ?_, ?_, ?_, ?_, ?_, ?_⟩
  · rw [singleCreate, length_reassignIds, List.length_append, List.length_singleton]
  · intro n hp hne
    show singleVehicleNum t = n
    rw [singleVehicleNum, if_neg hne, hp]
    rfl
  · intro hp
    show singleVehicleNum t = 0
    by_cases hne : t = ""
    · rw [singleVehicleNum, if_pos hne]
    · rw [singleVehicleNum, if_neg hne, hp]
      rfl
  · intro hne
    show singleVehicleNum t = 0
    rw [singleVehicleNum, if_pos hne]
  · intro hd
    rw [bulkVehicleNum, if_neg]
    intro hc
    rw [hd] at hc
    exact Bool.false_ne_true hc.2
  · intro hne hd
    rw [bulkVehicleNum, if_pos ⟨hne, hd⟩]
  · intro ht ha hne hnone
    rw [bulkCreateWeekdays_past_guards store t a stt bs be wds dr no ht ha hne, hnone]

theorem c9_vehicle_number_derivation_witness :
    (mkNewEntry "12 - Truck" "Alice" "Confirmed" 3 5 "" "").vnum = 12
    ∧ bulkVehicleNum "12" = some 0
    ∧ bulkCreateWeekdays [] "Truck - Big" "B" "Confirmed" 0 7 [0] "" "" = .exn := by
  have h1 := c9_vehicle_number_derivation [] "12 - Truck" "Alice" "Confirmed" 3 5 0 7 [0] "" ""
  have h2 := c9_vehicle_number_derivation [] "12" "A" "Confirmed" 3 5 0 7 [0] "" ""
  have h3 := c9_vehicle_number_derivation [] "Truck - Big" "B" "Confirmed" 3 5 0 7 [0] "" ""
  exact ⟨h1.2.1 12 (by decide) (by decide),
    h2.2.2.2.2.1 (by decide),
    h3.2.2.2.2.2.2 (by decide) (by decide) (by decide) (by decide)⟩

/-- C10: loading the persisted table forces every return date to
time-of-day 23:59; when the Unique ID column is absent or contains a
null, every id is reassigned to 0..count-1; and the loaded snapshot is
sorted ascending by Unique ID. -/
theorem c10_load_repairs (rows : List RawRec) (p : Bool) :
    (∀ r ∈ load_vehicle_data rows p, r.ret % minutesPerDay = 1439)
    ∧ ((p = false ∨ ∃ x ∈ rows, x.uid = none) →
        idsOf (load_vehicle_data rows p) = List.range rows.length)
    ∧ (load_vehicle_data rows p).Pairwise uidLe := by
  have key : ∀ x ∈ (loadRows1 rows).map rawToRec, x.ret % minutesPerDay = 1439 := by
    intro x hx
    obtain ⟨y, hy, rfl⟩ := List.mem_map.mp hx
    obtain ⟨z, hz, rfl⟩ := List.mem_map.mp hy
    exact set_time_to_2359_mod _
  refine ⟨?_, ?_, List.sorted_insertionSort uidLe _⟩
  · intro r hr
    have hr' : r ∈ loadRecs rows p :=
      (List.perm_insertionSort uidLe _).mem_iff.mp hr
    rw [loadRecs] at hr'
    split at hr'
    · exact key r hr'
    · rw [reassignIds] at hr'
      have hret : r.ret ∈ (reassignIdsFrom 0 ((loadRows1 rows).map rawToRec)).map
          (fun rr => rr.ret) := List.mem_map_of_mem _ hr'
      rw [map_ret_reassignIdsFrom] at hret
      obtain ⟨x, hx, hxr⟩ := List.mem_map.mp hret
      rw [← hxr]
      exact key x hx
  · intro hcond
    have hfalse : (p && (loadRows1 rows).all (fun r => r.uid.isSome)) = false := by
      cases hcond with
      | inl h => rw [h]; rfl
      | inr h =>
        obtain ⟨x, hx, hxu⟩ := h
        cases hall : (loadRows1 rows).all (fun r => r.uid.isSome) with
        | false => rw [Bool.and_false]
        | true =>
          exfalso
          have hx1 : ({ x with ret := set_time_to_2359 x.ret } : RawRec) ∈ loadRows1 rows :=
            List.mem_map_of_mem _ hx
          have := List.all_eq_true.mp hall _ hx1
          rw [show ({ x with ret := set_time_to_2359 x.ret } : RawRec).uid = x.uid from rfl,
            hxu] at this
          simp at this
    have hrecs : loadRecs rows p = reassignIds ((loadRows1 rows).map rawToRec) := by
      rw [loadRecs, if_neg]
      rw [hfalse]
      exact Bool.false_ne_true
    have hlen : ((loadRows1 rows).map rawToRec).length = rows.length := by
      simp [loadRows1]
    have hids : idsOf (loadRecs rows p) = List.range rows.length := by
      rw [hrecs, idsOf_reassignIds, hlen]
    have hperm : List.Perm ((load_vehicle_data rows p).map (fun r => r.uid))
        (List.range rows.length) := by
      rw [← hids]
      exact (List.perm_insertionSort uidLe _).map _
    have hsorted : ((load_vehicle_data rows p).map (fun r => r.uid)).Pairwise
        (fun a b => a ≤ b) :=
      List.pairwise_map.mpr (List.sorted_insertionSort uidLe (loadRecs rows p))
    exact List.eq_of_perm_of_sorted hperm hsorted (List.sorted_le_range rows.length)

/-- A raw row whose Unique ID cell is null. -/
def rawNull : RawRec :=
  { uid := none, vtype := "12 - Truck", vnum := 12, assignedTo := "Alice",
    status := "Confirmed", checkout := dayStart 3, ret := dayStart 5,
    drivers := "", notes := "" }

/-- A raw row with a stored Unique ID. -/
def rawFive : RawRec :=
  { uid := some 5, vtype := "7 - Van", vnum := 7, assignedTo := "Bob",
    status := "Reserved", checkout := dayStart 1, ret := dayStart 2,
    drivers := "", notes := "" }

theorem c10_load_repairs_witness :
    (rawToRec { rawNull with ret := set_time_to_2359 rawNull.ret }).ret % minutesPerDay = 1439
    ∧ idsOf (load_vehicle_data [rawNull, rawFive] true) = List.range 2
    ∧ (load_vehicle_data [rawNull, rawFive] true).Pairwise uidLe := by
  have h := c10_load_repairs [rawNull, rawFive] true
  refine ⟨?_, h.2.1 (by decide), h.2.2⟩
  exact h.1 _ (by decide)

end VehicleGantt
